import Mathlib

/-!
Verification of the metrics engine (`src/lib/calculations.ts`) of a
browser-based typing-speed test.  JavaScript numbers are modelled as exact
rationals (`ℚ`); `Math.round` rounds half toward positive infinity, which is
`⌊q + 1/2⌋`; strings are modelled as lists of characters (position-wise
indexing, as the source compares `typed[i] === reference[i]`).
`Math.round (Math.sqrt v)` is modelled by the executable `jsRoundSqrt`, proved
below (`jsRoundSqrt_eq_floor`) to equal `⌊Real.sqrt v + 1/2⌋` on nonnegative
inputs.
-/

/-- JavaScript `Math.round`: round half toward positive infinity. -/
def jsRound (q : ℚ) : ℤ := ⌊q + 1/2⌋

/-- JavaScript `Math.round (Math.sqrt q)` for `0 ≤ q`, computed with the
integer square root: the result is the greatest `n` with `(2*n-1)^2 ≤ 4*q`
(and `0` when no positive `n` qualifies), which is `⌊Real.sqrt q + 1/2⌋`. -/
def jsRoundSqrt (q : ℚ) : ℕ := (Nat.sqrt ⌊4 * q⌋.toNat + 1) / 2

/-- One recorded key press/release pair (type `KeystrokeEvent` of the app). -/
structure KeystrokeEvent where
  key : String
  keyDownTime : ℚ
  keyUpTime : Option ℚ
  duration : Option ℚ
  isCorrect : Bool
  charIndex : ℕ
deriving DecidableEq

/-- Result record of `detectFatigue`. -/
structure FatigueResult where
  fatigueDetected : Bool
  fatigueScore : ℚ
  earlyWPM : ℚ
  lateWPM : ℚ
deriving DecidableEq

/-- Record returned by `calculatePerformanceMetrics`. -/
structure PerformanceMetrics where
  wpm : ℚ
  accuracy : ℚ
  errorRate : ℚ
  totalKeystrokes : ℕ
  correctKeystrokes : ℕ
  incorrectKeystrokes : ℕ
  averageKeystrokeDuration : ℚ
  keystrokeDurationStdDev : ℚ
  tremorSeverityScore : ℚ
  fatigueDetected : Bool
  fatigueScore : ℚ
deriving DecidableEq

/-- `calculateWPM` from the source: `0` on zero duration, otherwise
`Math.round((characterCount / 5) / (durationMs / 60000))`. -/
def calculateWPM (characterCount durationMs : ℚ) : ℚ :=
  if durationMs = 0 then 0
  else ((jsRound ((characterCount / 5) / (durationMs / 60000)) : ℤ) : ℚ)

/-- Loop body of `calculateAccuracy`: the number of positions
`i < min (len typed) (len reference)` where the characters agree. -/
def matchCount (typedText referenceText : List Char) : ℕ :=
  (List.range (min typedText.length referenceText.length)).countP
    (fun i => decide (typedText.get? i = referenceText.get? i))

/-- `calculateAccuracy` from the source: `100` on empty typed text, otherwise
`Math.round((correct / typedText.length) * 100)`. -/
def calculateAccuracy (typedText referenceText : List Char) : ℚ :=
  if typedText.length = 0 then 100
  else ((jsRound (((matchCount typedText referenceText : ℚ) / typedText.length) * 100) : ℤ) : ℚ)

/-- `calculateErrorRate` from the source: `100 - accuracy`. -/
def calculateErrorRate (typedText referenceText : List Char) : ℚ :=
  100 - calculateAccuracy typedText referenceText

/-- The local `validKeystrokes` of the source: events whose `duration` is not
`null`. -/
def validDurations (keystrokes : List KeystrokeEvent) : List KeystrokeEvent :=
  keystrokes.filter (fun k => k.duration.isSome)

/-- The `reduce` in `calculateAverageKeystrokeDuration`: the sum of the
durations (`k.duration || 0`) of the valid keystrokes. -/
def durationSum (keystrokes : List KeystrokeEvent) : ℚ :=
  ((validDurations keystrokes).map (fun k => k.duration.getD 0)).sum

/-- `calculateAverageKeystrokeDuration` from the source: `0` when no event has
a duration, otherwise `Math.round(sum / count)`. -/
def calculateAverageKeystrokeDuration (keystrokes : List KeystrokeEvent) : ℚ :=
  if (validDurations keystrokes).length = 0 then 0
  else ((jsRound (durationSum keystrokes / (validDurations keystrokes).length) : ℤ) : ℚ)

/-- The `variance` local of `calculateKeystrokeDurationStdDev`: mean of the
squared differences from the (already rounded) mean duration; the variance
itself is NOT rounded in the source. -/
def durationVariance (keystrokes : List KeystrokeEvent) : ℚ :=
  ((validDurations keystrokes).map (fun k =>
      (k.duration.getD 0 - calculateAverageKeystrokeDuration keystrokes) *
      (k.duration.getD 0 - calculateAverageKeystrokeDuration keystrokes))).sum /
    (validDurations keystrokes).length

/-- `calculateKeystrokeDurationStdDev` from the source: `0` when no event has
a duration, otherwise `Math.round(Math.sqrt(variance))`. -/
def calculateKeystrokeDurationStdDev (keystrokes : List KeystrokeEvent) : ℚ :=
  if (validDurations keystrokes).length = 0 then 0
  else ((jsRoundSqrt (durationVariance keystrokes) : ℕ) : ℚ)

/-- `calculateTremorScore` from the source: `0` when the mean duration is `0`,
otherwise `min 100 (Math.round(coefficientOfVariation * 2))` where the
coefficient of variation is `(stdDev / mean) * 100`. -/
def calculateTremorScore (keystrokes : List KeystrokeEvent) : ℚ :=
  if calculateAverageKeystrokeDuration keystrokes = 0 then 0
  else
    min 100
      ((jsRound ((calculateKeystrokeDurationStdDev keystrokes /
          calculateAverageKeystrokeDuration keystrokes) * 100 * 2) : ℤ) : ℚ)

/-- First-third filter of `detectFatigue`: key-down time strictly before
`startTime + thirdDuration`. -/
def earlyKeystrokes (keystrokes : List KeystrokeEvent) (startTime endTime : ℚ) :
    List KeystrokeEvent :=
  keystrokes.filter (fun k => decide (k.keyDownTime < startTime + (endTime - startTime) / 3))

/-- Last-third filter of `detectFatigue`: key-down time strictly after
`startTime + 2 * thirdDuration`. -/
def lateKeystrokes (keystrokes : List KeystrokeEvent) (startTime endTime : ℚ) :
    List KeystrokeEvent :=
  keystrokes.filter (fun k => decide (startTime + 2 * ((endTime - startTime) / 3) < k.keyDownTime))

/-- `detectFatigue` from the source. -/
def detectFatigue (keystrokes : List KeystrokeEvent) (startTime endTime : ℚ) : FatigueResult :=
  if keystrokes.length < 10 then ⟨false, 0, 0, 0⟩
  else
    let thirdDuration := (endTime - startTime) / 3
    if (earlyKeystrokes keystrokes startTime endTime).length = 0 ∨
        (lateKeystrokes keystrokes startTime endTime).length = 0 then ⟨false, 0, 0, 0⟩
    else
      let earlyWPM := calculateWPM (earlyKeystrokes keystrokes startTime endTime).length thirdDuration
      let lateWPM := calculateWPM (lateKeystrokes keystrokes startTime endTime).length thirdDuration
      let decline := if 0 < earlyWPM then ((earlyWPM - lateWPM) / earlyWPM) * 100 else 0
      ⟨decide (20 < decline), ((max 0 (jsRound decline) : ℤ) : ℚ),
        ((jsRound earlyWPM : ℤ) : ℚ), ((jsRound lateWPM : ℤ) : ℚ)⟩

/-- `calculatePerformanceMetrics` from the source. -/
def calculatePerformanceMetrics (typedText referenceText : List Char)
    (keystrokes : List KeystrokeEvent) (startTime endTime : ℚ) : PerformanceMetrics :=
  let accuracy := calculateAccuracy typedText referenceText
  let fatigue := detectFatigue keystrokes startTime endTime
  let correctKeystrokes := (keystrokes.filter (fun k => k.isCorrect)).length
  { wpm := calculateWPM typedText.length (endTime - startTime)
    accuracy := accuracy
    errorRate := 100 - accuracy
    totalKeystrokes := keystrokes.length
    correctKeystrokes := correctKeystrokes
    incorrectKeystrokes := keystrokes.length - correctKeystrokes
    averageKeystrokeDuration := calculateAverageKeystrokeDuration keystrokes
    keystrokeDurationStdDev := calculateKeystrokeDurationStdDev keystrokes
    tremorSeverityScore := calculateTremorScore keystrokes
    fatigueDetected := fatigue.fatigueDetected
    fatigueScore := fatigue.fatigueScore }

/-- The `decline` local of `detectFatigue` (identical to the formula of the
spec): percentage WPM decline from the early group to the late group, `0` when
the early WPM is not positive. -/
def fatigueDecline (keystrokes : List KeystrokeEvent) (startTime endTime : ℚ) : ℚ :=
  let earlyWPM := calculateWPM (earlyKeystrokes keystrokes startTime endTime).length
    ((endTime - startTime) / 3)
  let lateWPM := calculateWPM (lateKeystrokes keystrokes startTime endTime).length
    ((endTime - startTime) / 3)
  if 0 < earlyWPM then ((earlyWPM - lateWPM) / earlyWPM) * 100 else 0

/-- The map `cv ↦ min 100 (Math.round (cv * 2))` applied by
`calculateTremorScore` to the coefficient of variation. -/
def tremorFromCV (c : ℚ) : ℚ := min 100 ((jsRound (c * 2) : ℤ) : ℚ)

/-- Modelled from the claim's words "with each intermediate rounded to nearest
integer": like `calculateKeystrokeDurationStdDev` but with the variance also
rounded to the nearest integer before the square root.  The source does not
round the variance; this definition exists to be compared with the source. -/
def stdDevAllIntermediatesRounded (keystrokes : List KeystrokeEvent) : ℚ :=
  if (validDurations keystrokes).length = 0 then 0
  else ((jsRoundSqrt ((jsRound (durationVariance keystrokes) : ℤ) : ℚ) : ℕ) : ℚ)

/-- Sample event constructor for concrete test inputs. -/
def ev (t : ℚ) (d : Option ℚ) (c : Bool) : KeystrokeEvent := ⟨"k", t, none, d, c, 0⟩

/-- Twelve events all inside the first third of the window `[0, 30000]`. -/
def ksAllEarly : List KeystrokeEvent :=
  [ev 100 none true, ev 200 none true, ev 300 none true, ev 400 none true,
   ev 500 none true, ev 600 none true, ev 700 none true, ev 800 none true,
   ev 900 none true, ev 1000 none true, ev 1100 none true, ev 1200 none true]

/-- Ten events, five in the first third and five in the last third of the
window `[0, 30000]`. -/
def ksTenSpread : List KeystrokeEvent :=
  [ev 1000 none true, ev 2000 none true, ev 3000 none true, ev 4000 none true,
   ev 5000 none true, ev 22000 none true, ev 23000 none true, ev 24000 none true,
   ev 25000 none true, ev 26000 none true]

/-- Four events with durations `12, 8, 11, 10` (mean `41/4`, rounded mean `10`,
variance `9/4`). -/
def ksStd4 : List KeystrokeEvent :=
  [ev 0 (some 12) true, ev 0 (some 8) true, ev 0 (some 11) true, ev 0 (some 10) true]

/-- Two events with negative recorded durations `-20` and `-2`. -/
def ksNegDur : List KeystrokeEvent := [ev 0 (some (-20)) true, ev 0 (some (-2)) true]

/-- Two events with durations `10` and `20`. -/
def ksTwoDur : List KeystrokeEvent := [ev 0 (some 10) true, ev 0 (some 20) true]

lemma jsRound_nonneg {q : ℚ} (h : 0 ≤ q) : 0 ≤ jsRound q :=
  Int.floor_nonneg.mpr (by linarith)

lemma jsRound_le_of_le {q : ℚ} {n : ℤ} (h : q ≤ n) : jsRound q ≤ n := by
  have h1 : (jsRound q : ℚ) ≤ q + 1/2 := Int.floor_le _
  have h2 : (jsRound q : ℚ) < (n : ℚ) + 1 := by linarith
  exact_mod_cast Int.lt_add_one_iff.mp (by exact_mod_cast h2)

lemma jsRound_lt_iff {q : ℚ} {n : ℤ} : jsRound q < n ↔ q + 1/2 < (n : ℚ) := Int.floor_lt

lemma jsRound_intCast (n : ℤ) : jsRound (n : ℚ) = n := by
  unfold jsRound
  rw [Int.floor_int_add, Int.floor_eq_zero_iff.mpr (by norm_num)]
  ring

lemma jsRound_mono {a b : ℚ} (h : a ≤ b) : jsRound a ≤ jsRound b :=
  Int.floor_le_floor (by linarith)

lemma jsRound_zero : jsRound 0 = 0 := by
  have := jsRound_intCast 0
  simpa using this

lemma jsRoundSqrt_eq_floor (q : ℚ) (hq : 0 ≤ q) :
    (jsRoundSqrt q : ℤ) = ⌊Real.sqrt (q : ℝ) + 1/2⌋ := by
  have h4 : (0:ℚ) ≤ 4 * q := by linarith
  have h0 : (0:ℤ) ≤ (4 * q).floor := Int.floor_nonneg.mpr h4
  set t : ℕ := (4 * q).floor.toNat with ht
  have hcast : ((t : ℤ) : ℚ) = (((4 * q).floor : ℤ) : ℚ) := by
    exact_mod_cast congrArg (fun z : ℤ => (z : ℚ)) (Int.toNat_of_nonneg h0)
  have hfl : (t : ℚ) ≤ 4 * q := by
    have h2 : (((4 * q).floor : ℤ) : ℚ) ≤ 4 * q := Int.floor_le _
    have h3 : ((t : ℤ) : ℚ) ≤ 4 * q := by rw [hcast]; exact h2
    exact_mod_cast h3
  have hfu : 4 * q < (t : ℚ) + 1 := by
    have h2 : 4 * q < (((4 * q).floor : ℤ) : ℚ) + 1 := Int.lt_floor_add_one _
    have h3 : 4 * q < ((t : ℤ) : ℚ) + 1 := by rw [hcast]; exact h2
    exact_mod_cast h3
  set s : ℕ := Nat.sqrt t with hs
  set n : ℕ := (s + 1) / 2 with hn
  have hjs : jsRoundSqrt q = n := rfl
  rw [hjs]
  symm
  rw [Int.floor_eq_iff]
  constructor
  · rcases Nat.eq_zero_or_pos n with hz | hpos
    · rw [hz]
      push_cast
      have := Real.sqrt_nonneg ((q : ℝ))
      linarith
    · have h2n : 2 * n ≤ s + 1 := by omega
      have hsq : s ^ 2 ≤ t := Nat.sqrt_le' t
      have hq1 : (2 * (n : ℚ) - 1) ^ 2 ≤ 4 * q := by
        have hss : ((s : ℚ)) ^ 2 ≤ (t : ℚ) := by exact_mod_cast hsq
        have h2n' : 2 * (n : ℚ) - 1 ≤ (s : ℚ) := by
          have : 2 * (n : ℤ) - 1 ≤ (s : ℤ) := by omega
          push_cast at this ⊢
          exact_mod_cast this
        have hpos' : (0:ℚ) ≤ 2 * (n : ℚ) - 1 := by
          have : (0:ℤ) ≤ 2 * (n : ℤ) - 1 := by omega
          push_cast at this ⊢
          exact_mod_cast this
        nlinarith
      have hr : ((n : ℝ) - 1/2) ^ 2 ≤ (q : ℝ) := by
        have hcst : ((2 * (n : ℚ) - 1 : ℚ) : ℝ) ^ 2 ≤ ((4 * q : ℚ) : ℝ) := by
          exact_mod_cast hq1
        push_cast at hcst
        nlinarith
      have hge : (0:ℝ) ≤ (n : ℝ) - 1/2 := by
        have : (1:ℝ) ≤ (n : ℝ) := by exact_mod_cast hpos
        linarith
      have hqr : (0:ℝ) ≤ (q : ℝ) := by exact_mod_cast hq
      have := (Real.le_sqrt hge hqr).mpr hr
      push_cast
      linarith
  · have hlt : t < (s + 1) ^ 2 := by
      have := Nat.lt_succ_sqrt' t
      simpa [Nat.succ_eq_add_one] using this
    have h2n : s ≤ 2 * n := by omega
    have hq2 : 4 * q < (2 * (n : ℚ) + 1) ^ 2 := by
      have hle : (s + 1) ^ 2 ≤ (2 * n + 1) ^ 2 := Nat.pow_le_pow_left (by omega) 2
      have h1 : (t : ℚ) + 1 ≤ (((s + 1) ^ 2 : ℕ) : ℚ) := by exact_mod_cast hlt
      have h2 : (((s + 1) ^ 2 : ℕ) : ℚ) ≤ (((2 * n + 1) ^ 2 : ℕ) : ℚ) := by exact_mod_cast hle
      have h3 : (((2 * n + 1) ^ 2 : ℕ) : ℚ) = (2 * (n : ℚ) + 1) ^ 2 := by push_cast; ring
      linarith
    have hr : (q : ℝ) < ((n : ℝ) + 1/2) ^ 2 := by
      have hcst : ((4 * q : ℚ) : ℝ) < ((2 * (n : ℚ) + 1 : ℚ) : ℝ) ^ 2 := by exact_mod_cast hq2
      push_cast at hcst
      nlinarith
    have hpos2 : (0:ℝ) < (n : ℝ) + 1/2 := by positivity
    have := (Real.sqrt_lt' hpos2).mpr hr
    push_cast
    linarith

lemma calculateWPM_round (c d : ℚ) :
    ((jsRound (calculateWPM c d) : ℤ) : ℚ) = calculateWPM c d := by
  unfold calculateWPM
  split
  · simpa using congrArg (fun z : ℤ => (z : ℚ)) jsRound_zero
  · rw [jsRound_intCast]

lemma calculateWPM_nonneg {c d : ℚ} (hc : 0 ≤ c) (hd : 0 ≤ d) :
    0 ≤ calculateWPM c d := by
  unfold calculateWPM
  split
  · exact le_refl 0
  · rename_i h
    have hd' : 0 < d := lt_of_le_of_ne hd (Ne.symm h)
    have harg : 0 ≤ (c / 5) / (d / 60000) := by positivity
    exact_mod_cast jsRound_nonneg harg

lemma matchCount_le (typedText referenceText : List Char) :
    matchCount typedText referenceText ≤ typedText.length := by
  unfold matchCount
  calc (List.range (min typedText.length referenceText.length)).countP _
      ≤ (List.range (min typedText.length referenceText.length)).length :=
        List.countP_le_length _
    _ = min typedText.length referenceText.length := List.length_range _
    _ ≤ typedText.length := min_le_left _ _

lemma calculateAccuracy_bounds (typedText referenceText : List Char) :
    0 ≤ calculateAccuracy typedText referenceText ∧
      calculateAccuracy typedText referenceText ≤ 100 := by
  unfold calculateAccuracy
  split
  · norm_num
  · rename_i h
    have hL : 0 < (typedText.length : ℚ) := by
      have : 0 < typedText.length := Nat.pos_of_ne_zero h
      exact_mod_cast this
    have hm : (matchCount typedText referenceText : ℚ) ≤ (typedText.length : ℚ) := by
      exact_mod_cast matchCount_le typedText referenceText
    have hm0 : (0:ℚ) ≤ (matchCount typedText referenceText : ℚ) := by positivity
    have harg0 : (0:ℚ) ≤ (matchCount typedText referenceText : ℚ) / typedText.length * 100 := by
      positivity
    have harg1 : (matchCount typedText referenceText : ℚ) / typedText.length * 100 ≤ 100 := by
      have hdiv : (matchCount typedText referenceText : ℚ) / typedText.length ≤ 1 :=
        (div_le_one hL).mpr hm
      linarith
    constructor
    · exact_mod_cast jsRound_nonneg harg0
    · exact_mod_cast jsRound_le_of_le (n := 100) (by exact_mod_cast harg1)

lemma detectFatigue_score_nonneg (keystrokes : List KeystrokeEvent) (startTime endTime : ℚ) :
    0 ≤ (detectFatigue keystrokes startTime endTime).fatigueScore := by
  unfold detectFatigue
  split
  · norm_num
  · split
    · norm_num
    · simp only
      exact_mod_cast le_max_left (0:ℤ) _

lemma natSqrt_eq {n s : ℕ} (h1 : s * s ≤ n) (h2 : n < (s + 1) * (s + 1)) : Nat.sqrt n = s := by
  have ha : s ≤ Nat.sqrt n := Nat.le_sqrt.mpr h1
  have hb : Nat.sqrt n < s + 1 := Nat.sqrt_lt.mpr h2
  omega

/-- Claim C1: accuracy is `100` on empty typed text, otherwise
`round(matches / len(typed) * 100)` where `matches` counts the positions
`i < min(len(typed), len(reference))` with `typed[i] = reference[i]`, and the
error rate is `100 - accuracy`. -/
theorem accuracy_errorRate_contract (typedText referenceText : List Char) :
    (typedText = [] → calculateAccuracy typedText referenceText = 100) ∧
    (typedText ≠ [] →
      calculateAccuracy typedText referenceText =
        ((jsRound (((matchCount typedText referenceText : ℚ) / typedText.length) * 100) : ℤ) : ℚ)) ∧
    calculateErrorRate typedText referenceText =
      100 - calculateAccuracy typedText referenceText := by
  refine ⟨fun h => ?_, fun h => ?_, rfl⟩
  · simp [calculateAccuracy, h]
  · have hlen : typedText.length ≠ 0 := by simpa [List.length_eq_zero] using h
    simp [calculateAccuracy, hlen]

/-- Witness for C1 at the spec scenario: typed `"helo"` against reference
`"hello"` gives 3 matching positions, accuracy 75 and error rate 25. -/
theorem accuracy_errorRate_contract_witness :
    matchCount "helo".data "hello".data = 3 ∧
      calculateAccuracy "helo".data "hello".data = 75 ∧
      calculateErrorRate "helo".data "hello".data = 25 := by
  have hacc : calculateAccuracy "helo".data "hello".data = 75 := by
    have h := (accuracy_errorRate_contract "helo".data "hello".data).2.1 (by decide)
    rw [h, show matchCount "helo".data "hello".data = 3 from by decide]
    norm_num [jsRound]
  have herr := (accuracy_errorRate_contract "helo".data "hello".data).2.2
  refine ⟨by decide, hacc, ?_⟩
  rw [herr, hacc]
  norm_num

/-- Claim C6: `calculateWPM` returns `0` on zero duration without signalling
any error, and on nonzero duration returns
`round((characterCount / 5) / (durationMs / 60000))`. -/
theorem wpm_contract (x d : ℚ) (hx : 0 ≤ x) :
    calculateWPM x 0 = 0 ∧
      (d ≠ 0 → calculateWPM x d = ((jsRound ((x / 5) / (d / 60000)) : ℤ) : ℚ)) := by
  refine ⟨by simp [calculateWPM], fun hd => ?_⟩
  simp [calculateWPM, hd]

/-- Witness for C6: 60 characters in one minute is 12 WPM, and zero duration
gives 0. -/
theorem wpm_contract_witness : calculateWPM 60 0 = 0 ∧ calculateWPM 60 60000 = 12 := by
  have h := wpm_contract 60 60000 (by norm_num)
  refine ⟨h.1, (h.2 (by norm_num)).trans ?_⟩
  norm_num [jsRound]

/-- Claim C8: in every record produced by `calculatePerformanceMetrics` the
correct and incorrect keystroke counts sum to the total keystroke count, which
is the length of the event sequence; correct counts the events whose
`isCorrect` flag is true. -/
theorem keystroke_tally_invariant (typedText referenceText : List Char)
    (keystrokes : List KeystrokeEvent) (startTime endTime : ℚ) :
    (calculatePerformanceMetrics typedText referenceText keystrokes startTime endTime).correctKeystrokes +
        (calculatePerformanceMetrics typedText referenceText keystrokes startTime endTime).incorrectKeystrokes =
      (calculatePerformanceMetrics typedText referenceText keystrokes startTime endTime).totalKeystrokes ∧
    (calculatePerformanceMetrics typedText referenceText keystrokes startTime endTime).totalKeystrokes =
      keystrokes.length ∧
    (calculatePerformanceMetrics typedText referenceText keystrokes startTime endTime).correctKeystrokes =
      (keystrokes.filter (fun k => k.isCorrect)).length := by
  refine ⟨?_, rfl, rfl⟩
  simp only [calculatePerformanceMetrics]
  exact Nat.add_sub_cancel' (List.length_filter_le _ _)

/-- Claim C9: in every record produced by `calculatePerformanceMetrics` the
accuracy and the error rate lie in `[0, 100]`, and the fatigue score is
clamped below at `0`. -/
theorem percentage_fields_bounds (typedText referenceText : List Char)
    (keystrokes : List KeystrokeEvent) (startTime endTime : ℚ) :
    0 ≤ (calculatePerformanceMetrics typedText referenceText keystrokes startTime endTime).accuracy ∧
    (calculatePerformanceMetrics typedText referenceText keystrokes startTime endTime).accuracy ≤ 100 ∧
    0 ≤ (calculatePerformanceMetrics typedText referenceText keystrokes startTime endTime).errorRate ∧
    (calculatePerformanceMetrics typedText referenceText keystrokes startTime endTime).errorRate ≤ 100 ∧
    0 ≤ (calculatePerformanceMetrics typedText referenceText keystrokes startTime endTime).fatigueScore := by
  obtain ⟨h0, h1⟩ := calculateAccuracy_bounds typedText referenceText
  have hacc : (calculatePerformanceMetrics typedText referenceText keystrokes startTime endTime).accuracy =
      calculateAccuracy typedText referenceText := rfl
  have herr : (calculatePerformanceMetrics typedText referenceText keystrokes startTime endTime).errorRate =
      100 - calculateAccuracy typedText referenceText := rfl
  have hfs : (calculatePerformanceMetrics typedText referenceText keystrokes startTime endTime).fatigueScore =
      (detectFatigue keystrokes startTime endTime).fatigueScore := rfl
  refine ⟨?_, ?_, ?_, ?_, ?_⟩
  · rw [hacc]; exact h0
  · rw [hacc]; exact h1
  · rw [herr]; linarith
  · rw [herr]; linarith
  · rw [hfs]; exact detectFatigue_score_nonneg _ _ _

/-- Claim C5: `detectFatigue` returns the zeroed result whenever there are
fewer than 10 events, and also whenever the early group or the late group is
empty. -/
theorem fatigue_zeroed_guards (keystrokes : List KeystrokeEvent) (startTime endTime : ℚ)
    (h : keystrokes.length < 10 ∨ earlyKeystrokes keystrokes startTime endTime = [] ∨
      lateKeystrokes keystrokes startTime endTime = []) :
    detectFatigue keystrokes startTime endTime = ⟨false, 0, 0, 0⟩ := by
  rcases h with h | h | h
  · simp [detectFatigue, h]
  · by_cases h10 : keystrokes.length < 10
    · simp [detectFatigue, h10]
    · simp [detectFatigue, h10, h]
  · by_cases h10 : keystrokes.length < 10
    · simp [detectFatigue, h10]
    · simp [detectFatigue, h10, h]

/-- Witness for C5 at the spec scenario: 12 events all in the first third of
the window `[0, 30000]` leave the late group empty, so the result is zeroed
although 12 is at or above the 10-event threshold. -/
theorem fatigue_zeroed_guards_witness :
    ksAllEarly.length = 12 ∧ lateKeystrokes ksAllEarly 0 30000 = [] ∧
      detectFatigue ksAllEarly 0 30000 = ⟨false, 0, 0, 0⟩ := by
  have hlate : lateKeystrokes ksAllEarly 0 30000 = [] := by
    have h2 : ((0:ℚ) + 2 * ((30000 - 0)/3)) = 20000 := by norm_num
    simp only [lateKeystrokes, h2]
    decide
  exact ⟨by decide, hlate, fatigue_zeroed_guards ksAllEarly 0 30000 (Or.inr (Or.inr hlate))⟩

/-- Claim C2: with at least 10 events and both time-window groups nonempty,
`detectFatigue` returns exactly: detected = (decline > 20),
score = max(0, round(decline)), and the early/late WPM computed as
`calculateWPM` of the group's keystroke count over the one-third duration,
where decline is `(earlyWPM - lateWPM) / earlyWPM * 100` when `earlyWPM > 0`
and `0` otherwise (the groups are the events strictly before the end of the
first third, resp. strictly after the start of the final third). -/
theorem fatigue_formula (keystrokes : List KeystrokeEvent) (startTime endTime : ℚ)
    (h10 : 10 ≤ keystrokes.length)
    (hE : earlyKeystrokes keystrokes startTime endTime ≠ [])
    (hL : lateKeystrokes keystrokes startTime endTime ≠ []) :
    detectFatigue keystrokes startTime endTime =
      { fatigueDetected := decide (20 < fatigueDecline keystrokes startTime endTime)
        fatigueScore := ((max 0 (jsRound (fatigueDecline keystrokes startTime endTime)) : ℤ) : ℚ)
        earlyWPM := calculateWPM (earlyKeystrokes keystrokes startTime endTime).length
          ((endTime - startTime) / 3)
        lateWPM := calculateWPM (lateKeystrokes keystrokes startTime endTime).length
          ((endTime - startTime) / 3) } := by
  have hE' : (earlyKeystrokes keystrokes startTime endTime).length ≠ 0 := by
    simpa [List.length_eq_zero] using hE
  have hL' : (lateKeystrokes keystrokes startTime endTime).length ≠ 0 := by
    simpa [List.length_eq_zero] using hL
  unfold detectFatigue
  rw [if_neg (by omega)]
  simp only
  rw [if_neg (by simp [hE', hL'])]
  simp only [calculateWPM_round]
  rfl

/-- Witness for C2: ten events, five early and five late in the window
`[0, 30000]`, give 6 WPM in each group, zero decline, no fatigue. -/
theorem fatigue_formula_witness :
    detectFatigue ksTenSpread 0 30000 = ⟨false, 0, 6, 6⟩ := by
  have h1 : ((0:ℚ) + (30000 - 0)/3) = 10000 := by norm_num
  have h2 : ((0:ℚ) + 2 * ((30000 - 0)/3)) = 20000 := by norm_num
  have hE : earlyKeystrokes ksTenSpread 0 30000 =
      [ev 1000 none true, ev 2000 none true, ev 3000 none true, ev 4000 none true,
       ev 5000 none true] := by
    simp only [earlyKeystrokes, h1]
    decide
  have hL : lateKeystrokes ksTenSpread 0 30000 =
      [ev 22000 none true, ev 23000 none true, ev 24000 none true, ev 25000 none true,
       ev 26000 none true] := by
    simp only [lateKeystrokes, h2]
    decide
  have hwE : calculateWPM ((earlyKeystrokes ksTenSpread 0 30000).length : ℚ)
      (((30000:ℚ) - 0) / 3) = 6 := by
    rw [hE]
    norm_num [calculateWPM, jsRound]
  have hwL : calculateWPM ((lateKeystrokes ksTenSpread 0 30000).length : ℚ)
      (((30000:ℚ) - 0) / 3) = 6 := by
    rw [hL]
    norm_num [calculateWPM, jsRound]
  have hdec : fatigueDecline ksTenSpread 0 30000 = 0 := by
    simp only [fatigueDecline]
    rw [hwE, hwL]
    norm_num
  rw [fatigue_formula ksTenSpread 0 30000 (by decide) (by rw [hE]; decide) (by rw [hL]; decide),
    hdec, hwE, hwL]
  rw [jsRound_zero]
  norm_num

/-- Claim C10: for a time window with `startTime < endTime` the fatigue score
of `detectFatigue` — and hence the one in the record of
`calculatePerformanceMetrics` — lies in `[0, 100]`: the late WPM is never
negative, so the decline cannot exceed 100, and the `max 0` clamp bounds it
below. -/
theorem fatigue_score_in_range (keystrokes : List KeystrokeEvent) (startTime endTime : ℚ)
    (h : startTime < endTime) :
    (0 ≤ (detectFatigue keystrokes startTime endTime).fatigueScore ∧
      (detectFatigue keystrokes startTime endTime).fatigueScore ≤ 100) ∧
    ∀ typedText referenceText : List Char,
      0 ≤ (calculatePerformanceMetrics typedText referenceText keystrokes startTime endTime).fatigueScore ∧
      (calculatePerformanceMetrics typedText referenceText keystrokes startTime endTime).fatigueScore ≤ 100 := by
  have hmain : 0 ≤ (detectFatigue keystrokes startTime endTime).fatigueScore ∧
      (detectFatigue keystrokes startTime endTime).fatigueScore ≤ 100 := by
    refine ⟨detectFatigue_score_nonneg _ _ _, ?_⟩
    unfold detectFatigue
    split
    · norm_num
    · split
      · norm_num
      · simp only
        have hthird : 0 < (endTime - startTime) / 3 := by linarith
        set eW := calculateWPM ((earlyKeystrokes keystrokes startTime endTime).length : ℚ)
          ((endTime - startTime) / 3) with heW
        set lW := calculateWPM ((lateKeystrokes keystrokes startTime endTime).length : ℚ)
          ((endTime - startTime) / 3) with hlW
        have hlW0 : 0 ≤ lW := calculateWPM_nonneg (by positivity) (le_of_lt hthird)
        have hdec : (if 0 < eW then ((eW - lW) / eW) * 100 else 0) ≤ 100 := by
          split
          · rename_i hpos
            have hd1 : (eW - lW) / eW ≤ 1 := (div_le_one hpos).mpr (by linarith)
            linarith
          · norm_num
        have hjr : jsRound (if 0 < eW then ((eW - lW) / eW) * 100 else 0) ≤ 100 :=
          jsRound_le_of_le (by exact_mod_cast hdec)
        have hmax : (max 0 (jsRound (if 0 < eW then ((eW - lW) / eW) * 100 else 0)) : ℤ) ≤ 100 :=
          max_le (by norm_num) hjr
        exact_mod_cast hmax
  exact ⟨hmain, fun _ _ => hmain⟩

/-- Witness for C10 at a concrete window: ten spread events over `[0, 30000]`
give fatigue score 0, inside `[0, 100]`. -/
theorem fatigue_score_in_range_witness :
    0 ≤ (detectFatigue ksTenSpread 0 30000).fatigueScore ∧
      (detectFatigue ksTenSpread 0 30000).fatigueScore ≤ 100 :=
  (fatigue_score_in_range ksTenSpread 0 30000 (by norm_num)).1

lemma durationVariance_nonneg (keystrokes : List KeystrokeEvent) :
    0 ≤ durationVariance keystrokes := by
  unfold durationVariance
  apply div_nonneg
  · apply List.sum_nonneg
    intro x hx
    simp only [List.mem_map] at hx
    obtain ⟨k, _, rfl⟩ := hx
    exact mul_self_nonneg _
  · positivity

lemma ksStd4_mean : calculateAverageKeystrokeDuration ksStd4 = 10 := by
  have hsum : durationSum ksStd4 = 41 := by
    simp [durationSum, validDurations, ksStd4, ev]
    norm_num
  have hlen : (validDurations ksStd4).length = 4 := by decide
  unfold calculateAverageKeystrokeDuration
  rw [if_neg (by decide), hsum, hlen]
  norm_num [jsRound]

lemma ksStd4_variance : durationVariance ksStd4 = 9/4 := by
  simp only [durationVariance, ksStd4_mean]
  simp [validDurations, ksStd4, ev]
  norm_num

lemma ksStd4_stdDev : calculateKeystrokeDurationStdDev ksStd4 = 2 := by
  unfold calculateKeystrokeDurationStdDev
  rw [if_neg (by decide), ksStd4_variance]
  have h : (⌊(4:ℚ) * (9/4)⌋).toNat = 9 := by
    norm_num
    decide
  rw [jsRoundSqrt, h, natSqrt_eq (s := 3) (by norm_num) (by norm_num)]
  norm_num

lemma ksStd4_specStdDev : stdDevAllIntermediatesRounded ksStd4 = 1 := by
  unfold stdDevAllIntermediatesRounded
  rw [if_neg (by decide), ksStd4_variance]
  have hjr : jsRound (9/4 : ℚ) = 2 := by norm_num [jsRound]
  rw [hjr]
  have h : (⌊(4:ℚ) * ((2:ℤ) : ℚ)⌋).toNat = 8 := by
    norm_num
    decide
  rw [jsRoundSqrt, h, natSqrt_eq (s := 2) (by norm_num) (by norm_num)]
  norm_num

/-- Counterexample for C3: on durations `12, 8, 11, 10` the source computes
standard deviation `round(sqrt(9/4)) = 2`, while rounding the intermediate
variance `9/4` to `2` before the square root (as the claim's "each
intermediate rounded to nearest integer" prescribes) would give `1`. -/
theorem stddev_rounding_cex :
    durationVariance ksStd4 = 9/4 ∧
      calculateKeystrokeDurationStdDev ksStd4 = 2 ∧
      stdDevAllIntermediatesRounded ksStd4 = 1 ∧
      calculateKeystrokeDurationStdDev ksStd4 ≠ stdDevAllIntermediatesRounded ksStd4 := by
  refine ⟨ksStd4_variance, ksStd4_stdDev, ksStd4_specStdDev, ?_⟩
  rw [ksStd4_stdDev, ksStd4_specStdDev]
  norm_num

/-- Claim C3 (amended): both statistics are `0` when no event has a valid
duration; otherwise the mean is `round(sum / count)`, and the standard
deviation is the rounding of the real square root of the population variance
(squared differences from the already-rounded mean, divided by the count),
where only the mean and the final square root are rounded — the variance
itself is used unrounded. -/
theorem stddev_contract (keystrokes : List KeystrokeEvent) :
    (validDurations keystrokes = [] →
      calculateAverageKeystrokeDuration keystrokes = 0 ∧
      calculateKeystrokeDurationStdDev keystrokes = 0) ∧
    (validDurations keystrokes ≠ [] →
      calculateAverageKeystrokeDuration keystrokes =
        ((jsRound (durationSum keystrokes / (validDurations keystrokes).length) : ℤ) : ℚ) ∧
      calculateKeystrokeDurationStdDev keystrokes =
        ((jsRoundSqrt (durationVariance keystrokes) : ℕ) : ℚ) ∧
      ((jsRoundSqrt (durationVariance keystrokes) : ℕ) : ℤ) =
        ⌊Real.sqrt ((durationVariance keystrokes : ℚ) : ℝ) + 1/2⌋) := by
  constructor
  · intro h
    have h0 : (validDurations keystrokes).length = 0 := by rw [h]; rfl
    exact ⟨by simp [calculateAverageKeystrokeDuration, h0],
      by simp [calculateKeystrokeDurationStdDev, h0]⟩
  · intro h
    have h0 : (validDurations keystrokes).length ≠ 0 := by
      simpa [List.length_eq_zero] using h
    exact ⟨by simp [calculateAverageKeystrokeDuration, h0],
      by simp [calculateKeystrokeDurationStdDev, h0],
      jsRoundSqrt_eq_floor _ (durationVariance_nonneg keystrokes)⟩

/-- Witness for C3 on durations `12, 8, 11, 10`: rounded mean 10, standard
deviation 2. -/
theorem stddev_contract_witness :
    calculateAverageKeystrokeDuration ksStd4 =
        ((jsRound (durationSum ksStd4 / (validDurations ksStd4).length) : ℤ) : ℚ) ∧
      calculateAverageKeystrokeDuration ksStd4 = 10 ∧
      calculateKeystrokeDurationStdDev ksStd4 = 2 ∧
      ((jsRoundSqrt (durationVariance ksStd4) : ℕ) : ℤ) =
        ⌊Real.sqrt ((durationVariance ksStd4 : ℚ) : ℝ) + 1/2⌋ := by
  have h := (stddev_contract ksStd4).2 (by decide)
  exact ⟨h.1, ksStd4_mean, ksStd4_stdDev, h.2.2⟩

lemma stdDev_nonneg (keystrokes : List KeystrokeEvent) :
    0 ≤ calculateKeystrokeDurationStdDev keystrokes := by
  unfold calculateKeystrokeDurationStdDev
  split
  · norm_num
  · positivity

lemma mean_nonneg_of (keystrokes : List KeystrokeEvent)
    (h : ∀ k ∈ keystrokes, 0 ≤ k.duration.getD 0) :
    0 ≤ calculateAverageKeystrokeDuration keystrokes := by
  unfold calculateAverageKeystrokeDuration
  split
  · norm_num
  · have hsum : 0 ≤ durationSum keystrokes := by
      unfold durationSum
      apply List.sum_nonneg
      intro x hx
      simp only [List.mem_map] at hx
      obtain ⟨k, hk, rfl⟩ := hx
      exact h k (List.mem_of_mem_filter hk)
    have hq : 0 ≤ durationSum keystrokes / ((validDurations keystrokes).length : ℚ) := by
      positivity
    exact_mod_cast jsRound_nonneg hq

lemma ksNegDur_mean : calculateAverageKeystrokeDuration ksNegDur = -11 := by
  have hsum : durationSum ksNegDur = -22 := by
    simp [durationSum, validDurations, ksNegDur, ev]
    norm_num
  have hlen : (validDurations ksNegDur).length = 2 := by decide
  unfold calculateAverageKeystrokeDuration
  rw [if_neg (by decide), hsum, hlen]
  norm_num [jsRound]

lemma ksNegDur_stdDev : calculateKeystrokeDurationStdDev ksNegDur = 9 := by
  have hvar : durationVariance ksNegDur = 81 := by
    simp only [durationVariance, ksNegDur_mean]
    simp [validDurations, ksNegDur, ev]
    norm_num
  unfold calculateKeystrokeDurationStdDev
  rw [if_neg (by decide), hvar]
  have h : (⌊(4:ℚ) * 81⌋).toNat = 324 := by
    norm_num
    decide
  rw [jsRoundSqrt, h, natSqrt_eq (s := 18) (by norm_num) (by norm_num)]
  norm_num

/-- Counterexample for C4: two events with negative recorded durations `-20`
and `-2` give rounded mean `-11`, standard deviation `9`, and a tremor score
of `-164`, outside `[0, 100]`. -/
theorem tremor_range_cex :
    calculateTremorScore ksNegDur = -164 ∧
      ¬ (0 ≤ calculateTremorScore ksNegDur ∧ calculateTremorScore ksNegDur ≤ 100) := by
  have hts : calculateTremorScore ksNegDur = -164 := by
    unfold calculateTremorScore
    rw [if_neg (by rw [ksNegDur_mean]; norm_num)]
    rw [ksNegDur_mean, ksNegDur_stdDev]
    have hjr : jsRound ((9:ℚ) / (-11) * 100 * 2) = -164 := by norm_num [jsRound]
    rw [hjr]
    norm_num
  refine ⟨hts, ?_⟩
  rw [hts]
  norm_num

/-- Claim C4 (amended): the tremor score is `0` when the mean duration is `0`,
otherwise `min 100 (round(cv * 2))` for `cv = (stdDev / mean) * 100`; the
score never exceeds `100` and the map from `cv` to the score is monotone
non-decreasing; the lower bound `0` holds whenever all recorded durations are
nonnegative (with negative recorded durations the score can be negative). -/
theorem tremor_contract (keystrokes : List KeystrokeEvent) :
    (calculateAverageKeystrokeDuration keystrokes = 0 → calculateTremorScore keystrokes = 0) ∧
    (calculateAverageKeystrokeDuration keystrokes ≠ 0 →
      calculateTremorScore keystrokes =
        tremorFromCV ((calculateKeystrokeDurationStdDev keystrokes /
          calculateAverageKeystrokeDuration keystrokes) * 100)) ∧
    calculateTremorScore keystrokes ≤ 100 ∧
    ((∀ k ∈ keystrokes, 0 ≤ k.duration.getD 0) → 0 ≤ calculateTremorScore keystrokes) ∧
    (∀ a b : ℚ, a ≤ b → tremorFromCV a ≤ tremorFromCV b) := by
  refine ⟨fun h => by simp [calculateTremorScore, h], fun h => ?_, ?_, fun hpos => ?_, ?_⟩
  · simp [calculateTremorScore, h, tremorFromCV, mul_assoc]
  · unfold calculateTremorScore
    split
    · norm_num
    · exact min_le_left _ _
  · unfold calculateTremorScore
    split
    · norm_num
    · rename_i hne
      have hm0 : 0 ≤ calculateAverageKeystrokeDuration keystrokes := mean_nonneg_of _ hpos
      have hmpos : 0 < calculateAverageKeystrokeDuration keystrokes :=
        lt_of_le_of_ne hm0 (Ne.symm hne)
      have hsd : 0 ≤ calculateKeystrokeDurationStdDev keystrokes := stdDev_nonneg _
      have hcv : 0 ≤ (calculateKeystrokeDurationStdDev keystrokes /
          calculateAverageKeystrokeDuration keystrokes) * 100 * 2 := by positivity
      have hjr : (0:ℤ) ≤ jsRound ((calculateKeystrokeDurationStdDev keystrokes /
          calculateAverageKeystrokeDuration keystrokes) * 100 * 2) := jsRound_nonneg hcv
      refine le_min (by norm_num) ?_
      exact_mod_cast hjr
  · intro a b hab
    unfold tremorFromCV
    refine min_le_min (le_refl _) ?_
    exact_mod_cast jsRound_mono (by linarith)

lemma ksTwoDur_mean : calculateAverageKeystrokeDuration ksTwoDur = 15 := by
  have hsum : durationSum ksTwoDur = 30 := by
    simp [durationSum, validDurations, ksTwoDur, ev]
    norm_num
  have hlen : (validDurations ksTwoDur).length = 2 := by decide
  unfold calculateAverageKeystrokeDuration
  rw [if_neg (by decide), hsum, hlen]
  norm_num [jsRound]

lemma ksTwoDur_stdDev : calculateKeystrokeDurationStdDev ksTwoDur = 5 := by
  have hvar : durationVariance ksTwoDur = 25 := by
    simp only [durationVariance, ksTwoDur_mean]
    simp [validDurations, ksTwoDur, ev]
    norm_num
  unfold calculateKeystrokeDurationStdDev
  rw [if_neg (by decide), hvar]
  have h : (⌊(4:ℚ) * 25⌋).toNat = 100 := by
    norm_num
    decide
  rw [jsRoundSqrt, h, natSqrt_eq (s := 10) (by norm_num) (by norm_num)]
  norm_num

/-- Witness for C4 on durations `10, 20`: mean `15`, standard deviation `5`,
coefficient of variation `100/3`, tremor score `67`, inside `[0, 100]`. -/
theorem tremor_contract_witness :
    calculateTremorScore ksTwoDur =
        tremorFromCV ((calculateKeystrokeDurationStdDev ksTwoDur /
          calculateAverageKeystrokeDuration ksTwoDur) * 100) ∧
      calculateTremorScore ksTwoDur = 67 ∧
      0 ≤ calculateTremorScore ksTwoDur ∧ calculateTremorScore ksTwoDur ≤ 100 := by
  have h := tremor_contract ksTwoDur
  have heq := h.2.1 (by rw [ksTwoDur_mean]; norm_num)
  have hval : calculateTremorScore ksTwoDur = 67 := by
    rw [heq, ksTwoDur_mean, ksTwoDur_stdDev]
    unfold tremorFromCV
    have hjr : jsRound ((5:ℚ) / 15 * 100 * 2) = 67 := by norm_num [jsRound]
    rw [hjr]
    norm_num
  exact ⟨heq, hval, h.2.2.2.1 (by decide), h.2.2.1⟩

lemma matchCount_of_take_eq {typedText referenceText : List Char}
    (hlen : referenceText.length ≤ typedText.length)
    (hpre : typedText.take referenceText.length = referenceText) :
    matchCount typedText referenceText = referenceText.length := by
  unfold matchCount
  rw [min_eq_right hlen]
  have hall : ∀ i ∈ List.range referenceText.length,
      (fun i => decide (typedText.get? i = referenceText.get? i)) i = true := by
    intro i hi
    rw [List.mem_range] at hi
    have hgt : typedText.get? i = referenceText.get? i := by
      conv_rhs => rw [← hpre]
      rw [List.get?_eq_getElem?, List.get?_eq_getElem?, List.getElem?_take_of_lt hi]
    rw [decide_eq_true_eq]
    exact hgt
  calc (List.range referenceText.length).countP
        (fun i => decide (typedText.get? i = referenceText.get? i))
      = (List.range referenceText.length).length := List.countP_eq_length.mpr hall
    _ = referenceText.length := List.length_range _

/-- Claim C7 (amended): an over-long typed text that matches the reference as
a prefix has accuracy strictly below 100 whenever
`200 * len(reference) < 199 * len(typed)`; at the rounding boundary (e.g.
typed 200 characters, reference its 199-character prefix) the accuracy rounds
back up to exactly 100. -/
theorem accuracy_overlong_below_100 (typedText referenceText : List Char)
    (hlen : referenceText.length < typedText.length)
    (hpre : typedText.take referenceText.length = referenceText)
    (hgap : 200 * referenceText.length < 199 * typedText.length) :
    calculateAccuracy typedText referenceText < 100 := by
  have hT0 : typedText.length ≠ 0 := by omega
  have hTpos : (0:ℚ) < typedText.length := by
    exact_mod_cast Nat.pos_of_ne_zero hT0
  have hm : matchCount typedText referenceText = referenceText.length :=
    matchCount_of_take_eq (le_of_lt hlen) hpre
  unfold calculateAccuracy
  rw [if_neg hT0, hm]
  have hcast : (200:ℚ) * referenceText.length < 199 * typedText.length := by
    exact_mod_cast hgap
  have harg : ((referenceText.length : ℚ) / typedText.length) * 100 + 1/2 < ((100:ℤ) : ℚ) := by
    rw [div_mul_eq_mul_div, div_add' _ _ _ (ne_of_gt hTpos), div_lt_iff₀ hTpos]
    push_cast
    linarith
  have hjr : jsRound (((referenceText.length : ℚ) / typedText.length) * 100) < 100 :=
    jsRound_lt_iff.mpr harg
  exact_mod_cast hjr

/-- Counterexample for C7: typed text of 200 `a`s whose reference is its
199-character prefix matches the whole comparison range, yet the accuracy is
`round(199/200 * 100) = round(99.5) = 100`, not strictly below 100. -/
theorem accuracy_overlong_cex :
    (List.replicate 199 'a').length < (List.replicate 200 'a').length ∧
      (List.replicate 200 'a').take (List.replicate 199 'a').length =
        List.replicate 199 'a' ∧
      calculateAccuracy (List.replicate 200 'a') (List.replicate 199 'a') = 100 := by
  have hpre : (List.replicate 200 'a').take (List.replicate 199 'a').length =
      List.replicate 199 'a' := by
    rw [List.length_replicate, List.take_replicate]
    norm_num
  refine ⟨by rw [List.length_replicate, List.length_replicate]; omega, hpre, ?_⟩
  have hm : matchCount (List.replicate 200 'a') (List.replicate 199 'a') = 199 := by
    have h := @matchCount_of_take_eq (List.replicate 200 'a') (List.replicate 199 'a')
      (by rw [List.length_replicate, List.length_replicate]; omega) hpre
    rw [List.length_replicate] at h
    exact h
  unfold calculateAccuracy
  rw [if_neg (by rw [List.length_replicate]; omega), hm]
  rw [show ((List.replicate 200 'a').length : ℚ) = 200 from by rw [List.length_replicate]; norm_num]
  norm_num [jsRound]

/-- Witness for C7 (amended) on typed `"ab"` against reference `"a"`: the
prefix matches, `200 * 1 < 199 * 2`, and the accuracy is `50 < 100`. -/
theorem accuracy_overlong_below_100_witness :
    calculateAccuracy "ab".data "a".data < 100 ∧
      calculateAccuracy "ab".data "a".data = 50 := by
  refine ⟨accuracy_overlong_below_100 "ab".data "a".data (by decide) (by decide) (by decide), ?_⟩
  have hm : matchCount "ab".data "a".data = 1 := by decide
  unfold calculateAccuracy
  rw [if_neg (by decide), hm]
  rw [show (("ab".data).length : ℚ) = 2 from by decide]
  norm_num [jsRound]
